import Mathlib

/-!
Shallow embedding of `goes16ci/imager.py` (GOES-16 ABI patch extraction
pipeline) and verification of its natural-language specification.

Conventions of the embedding:
* timestamps (seconds; pandas timestamps are 64-bit integers) and
  projected coordinates are modelled as integers — only their ordering
  and differences drive the control flow; stored float values
  (radiances, longitude/latitude grid entries, the reported nearest-miss
  distance in minutes) are modelled as rationals;
* NaN entries of the longitude/latitude grids are modelled as `none` in
  `Option ℚ`;
* Python exceptions are modelled with `Except Err`;
* numpy arrays are modelled as (nested) lists, and Python/numpy slicing,
  broadcasting and argmin/min are embedded explicitly below.
-/

namespace Goes16

/-- Python exceptions raised by the embedded code.  `granuleNotFound`
carries the nearest-miss distance in minutes that the code interpolates
into the `FileNotFoundError` message; both `valueError*` constructors
correspond to Python `ValueError` (one raised by `np.min` on an empty
array, one by a numpy broadcast failure, one by `np.random.choice` when
the requested sample is larger than the population). -/
inductive Err where
  | glmFileNotFound
  | granuleNotFound (nearestMissMinutes : ℚ)
  | valueErrorEmptyMin
  | valueErrorBroadcast
  | valueErrorSampleTooLarge
  | keyError
deriving DecidableEq

instance instDecEqExcept {ε α : Type} [DecidableEq ε] [DecidableEq α] :
    DecidableEq (Except ε α) := fun x y =>
  match x, y with
  | .error a, .error b => decidable_of_iff (a = b) (by simp)
  | .ok a, .ok b => decidable_of_iff (a = b) (by simp)
  | .error _, .ok _ => isFalse (by simp)
  | .ok _, .error _ => isFalse (by simp)

/-- Observable side effects of `extract_abi_patches`: opening the GLM grid
dataset and writing the output patch file. -/
inductive Effect where
  | openGlm
  | writeOutput
deriving DecidableEq

/-- Normalization of one Python slice endpoint for a dimension of length
`n`: negative endpoints count from the end, then the endpoint is clamped
to `[0, n]`. -/
def normIdx (a : ℤ) (n : ℕ) : ℕ :=
  if a < 0 then (a + n).toNat else min a.toNat n

/-- Length of the Python slice `x[a:b]` on a dimension of length `n`. -/
def pySliceLen (a b : ℤ) (n : ℕ) : ℕ :=
  normIdx b n - normIdx a n

/-- The indices selected by the Python slice `x[a:b]` on a dimension of
length `n`. -/
def pySliceIdx (a b : ℤ) (n : ℕ) : List ℕ :=
  (List.range (pySliceLen a b n)).map (fun i => normIdx a n + i)

/-- Absolute value on ℤ, written out so that concrete runs reduce inside
the kernel.  Timestamps (seconds) and projected coordinates are modelled
as integers: pandas timestamps are 64-bit integers, and only the
ordering of coordinate differences matters to the control flow. -/
def absZ (x : ℤ) : ℤ := if x < 0 then -x else x

/-- `np.argmin` on a list of values: index of the first occurrence of
the minimum value (0 on the empty list, which the embedding never asks). -/
def argminIdx : List ℤ → ℕ
  | [] => 0
  | [_] => 0
  | x :: y :: ys =>
    let j := argminIdx (y :: ys)
    if x ≤ (y :: ys).getD j 0 then 0 else j + 1

/-- `GOES16ABI.goes16_abi_filename`: given the search tolerance in
minutes (`time_range_minutes`), the requested timestamp and the parsed
timestamps of the candidate files of the requested channel (both in
seconds), return the index of the selected file in the sorted candidate
list.  Mirrors the source: absolute differences, `np.where(diffs <= tol)`,
`np.argmin` on success; on failure the error message evaluates
`date_diffs.total_seconds().values.min() / 60` (minutes, as a rational),
which on an empty candidate list raises `ValueError` before the
`FileNotFoundError` is constructed. -/
def goes16_abi_filename (time_range_minutes pd_date : ℤ)
    (file_dates : List ℤ) : Except Err ℕ :=
  let date_diffs := file_dates.map (fun d => absZ (d - pd_date))
  if date_diffs.any (fun d => decide (d ≤ 60 * time_range_minutes)) then
    .ok (argminIdx date_diffs)
  else if date_diffs = [] then
    .error .valueErrorEmptyMin
  else
    .error (.granuleNotFound
      ((date_diffs.getD (argminIdx date_diffs) 0 : ℚ) / 60))

/-- The sentinel threshold `1e10` used by `lon_lat_coords` to detect
off-Earth pixels in the raw inverse-projection output. -/
def sentinelThreshold : ℚ := 10000000000

/-- The masking step of `GOES16ABI.lon_lat_coords`:
`grid[grid > 1e10] = np.nan` applied to one 2-D grid (NaN is `none`). -/
def maskOffEarth (g : List (List ℚ)) : List (List (Option ℚ)) :=
  g.map (fun row => row.map (fun v =>
    if sentinelThreshold < v then none else some v))

/-- `GOES16ABI.lon_lat_coords`: takes the raw longitude and latitude
grids produced by the inverse projection and replaces entries larger
than `1e10` with NaN, in each grid independently. -/
def lon_lat_coords (lonRaw latRaw : List (List ℚ)) :
    List (List (Option ℚ)) × List (List (Option ℚ)) :=
  (maskOffEarth lonRaw, maskOffEarth latRaw)

/-- Low endpoint `center - size // 2` of the patch pixel window
(`GOES16ABI.extract_image_patch`, the `slice` lower bound). -/
def sliceStart (c h : ℕ) : ℤ := (c : ℤ) - ((h / 2 : ℕ) : ℤ)

/-- High endpoint `center + size // 2` of the patch pixel window
(`GOES16ABI.extract_image_patch`, the `slice` upper bound). -/
def sliceStop (c h : ℕ) : ℤ := (c : ℤ) + ((h / 2 : ℕ) : ℤ)

/-- The half-open pixel window `[center - size//2, center + size//2)`
used by `extract_image_patch` along one axis. -/
def pixelWindow (c h : ℕ) : Finset ℤ :=
  Finset.Ico (sliceStart c h) (sliceStop c h)

/-- Length of the row (or column) slice of `extract_image_patch` for
center pixel `c`, requested size `h`, on an axis of `n` pixels. -/
def rowSliceLen (c h n : ℕ) : ℕ :=
  pySliceLen (sliceStart c h) (sliceStop c h) n

/-- numpy broadcast compatibility of one source dimension against one
destination dimension for array assignment. -/
def broadcastOK (src dst : ℕ) : Bool := src = dst || src = 1

/-- Index used when reading a broadcast source dimension of length
`len`. -/
def bcastGet (len i : ℕ) : ℕ := if len = 1 then 0 else i

/-- Result of `GOES16ABI.extract_image_patch`: the radiance patch
(y × x × band; the leading singleton axis of the numpy array is
dropped), and the sliced longitude/latitude grids. -/
structure PatchResult where
  patch : List (List (List ℚ))
  lons : List (List (Option ℚ))
  lats : List (List (Option ℚ))
deriving DecidableEq

/-- Core of `GOES16ABI.extract_image_patch` after the center pixel has
been located: build both slice windows, allocate
`np.zeros((1, y_size, x_size, bands.size))` and assign every band's
sliced radiance into it (a numpy broadcast error is raised when a
truncated slice cannot be broadcast into the allocated patch and at
least one band is present), then slice the lon/lat grids. -/
def extract_image_patch (bands : List ℕ) (rad : ℕ → ℕ → ℕ → ℚ)
    (lonG latG : ℕ → ℕ → Option ℚ) (ny nx : ℕ)
    (center_row center_col : ℕ) (x_size y_size : ℕ) :
    Except Err PatchResult :=
  let rowIdx := pySliceIdx (sliceStart center_row y_size)
    (sliceStop center_row y_size) ny
  let colIdx := pySliceIdx (sliceStart center_col x_size)
    (sliceStop center_col x_size) nx
  if bands ≠ [] ∧
      ¬ (broadcastOK rowIdx.length y_size = true ∧
         broadcastOK colIdx.length x_size = true) then
    .error .valueErrorBroadcast
  else
    .ok
      { patch := (List.range y_size).map (fun r =>
          (List.range x_size).map (fun c =>
            bands.map (fun band =>
              rad band (rowIdx.getD (bcastGet rowIdx.length r) 0)
                (colIdx.getD (bcastGet colIdx.length c) 0)))),
        lons := rowIdx.map (fun r => colIdx.map (fun c => lonG r c)),
        lats := rowIdx.map (fun r => colIdx.map (fun c => latG r c)) }

/-- The per-instance data of one `GOES16ABI` object that patch
extraction reads: the candidate file dates per band, the per-band
radiance rasters, the masked lon/lat grids, the grid shape, the scaled
`x`/`y` axis vectors, and the forward geostationary projection. -/
structure ABIEnv where
  files : ℕ → List ℤ
  rad : ℕ → ℕ → ℕ → ℚ
  lonG : ℕ → ℕ → Option ℚ
  latG : ℕ → ℕ → Option ℚ
  ny : ℕ
  nx : ℕ
  xAxis : List ℤ
  yAxis : List ℤ
  fwd : ℤ × ℤ → ℤ × ℤ

/-- `GOES16ABI.extract_image_patch` in full: forward-project the center,
locate the nearest row/column on the 1-D axis vectors with `np.argmin`,
then run the slicing core. -/
def extract_image_patch_full (env : ABIEnv) (bands : List ℕ)
    (center_lon center_lat : ℤ) (x_size y_size : ℕ) :
    Except Err PatchResult :=
  let p := env.fwd (center_lon, center_lat)
  let center_row := argminIdx (env.yAxis.map (fun y => absZ (y - p.2)))
  let center_col := argminIdx (env.xAxis.map (fun x => absZ (x - p.1)))
  extract_image_patch bands env.rad env.lonG env.latG env.ny env.nx
    center_row center_col x_size y_size

/-- `GOES16ABI.close`: for each band, look up `goes16_ds[band]` (raising
`KeyError` when the key is absent) and delete the entry.  The state is
the list of keys of the `goes16_ds` dictionary. -/
def closeGOES16 (bands : List ℕ) (ds : List ℕ) : Except Err (List ℕ) :=
  bands.foldlM (fun d band =>
    if band ∈ d then Except.ok (d.erase band) else Except.error .keyError) ds

/-- One step of the random-permutation model: pick the position given by
the seed stream, move that element to the front, recurse on the rest.
Models `np.random.permutation`, which `np.random.choice(...,
replace=False)` uses, driven by an abstract stream of random numbers. -/
def permAux : ℕ → List ℕ → (ℕ → ℕ) → List ℕ
  | 0, _, _ => []
  | fuel + 1, l, seed =>
    if l = [] then []
    else
      let j := seed 0 % l.length
      l.getD j 0 :: permAux fuel (l.eraseIdx j) (fun i => seed (i + 1))

/-- Random permutation of a list, driven by a seed stream. -/
def randPerm (seed : ℕ → ℕ) (l : List ℕ) : List ℕ :=
  permAux l.length l seed

/-- `np.random.choice(np.arange(n), size=k, replace=False)`: raises
`ValueError` when `k > n`, otherwise takes the first `k` entries of a
random permutation of `0, ..., n-1`. -/
def choiceNoReplace (n k : ℕ) (seed : ℕ → ℕ) : Except Err (List ℕ) :=
  if k ≤ n then .ok ((randPerm seed (List.range n)).take k)
  else .error .valueErrorSampleTooLarge

/-- Contents of one GLM lightning-count grid file: observation times (in
seconds), the fixed spatial grid shape, the 2-D lon/lat grids and the
(time, row, col) count array. -/
structure GlmData where
  times : List ℤ
  ny : ℕ
  nx : ℕ
  lons : ℕ → ℕ → ℤ
  lats : ℕ → ℕ → ℤ
  counts : ℕ → ℕ → ℕ → ℤ

/-- The grid-cell sample drawn for time step `t` in
`extract_abi_patches`: `samples_per_time` flat indices chosen without
replacement from `np.arange(lons.size)`, the full flattened spatial
grid.  Depends only on the grid shape and the seed stream, never on the
count values. -/
def timeSamples (glm : GlmData) (samples_per_time : ℕ)
    (seeds : ℕ → ℕ → ℕ) (t : ℕ) : Except Err (List ℕ) :=
  choiceNoReplace (glm.ny * glm.nx) samples_per_time (seeds t)

/-- `np.unravel_index` for a row-major 2-D shape `(ny, nx)`. -/
def unravelIdx (nx i : ℕ) : ℕ × ℕ := (i / nx, i % nx)

/-- The `GOES16ABI.__init__` file lookups: every band's granule must be
found within the tolerance (11 minutes inside the pipeline), otherwise
construction raises. -/
def mkGOES16ABI (env : ABIEnv) (bands : List ℕ) (time_range_minutes date : ℤ) :
    Except Err Unit :=
  bands.foldlM (fun _ band =>
    (goes16_abi_filename time_range_minutes date (env.files band)).map
      (fun _ => ())) ()

/-- The accumulated output arrays of `extract_abi_patches` (the contents
of the final patch dataset). -/
structure PatchOutput where
  patches : List (List (List (List ℚ)))
  patch_lons : List (List (List (Option ℚ)))
  patch_lats : List (List (List (Option ℚ)))
  flash_counts : List ℤ
  patch_times : List ℤ

/-- numpy assignment of a 2-D source into a fixed `(y, x)` destination
slot, with broadcasting; raises `ValueError` when the shapes are not
broadcast compatible. -/
def bcAssign2 (y x : ℕ) (src : List (List (Option ℚ))) :
    Except Err (List (List (Option ℚ))) :=
  let h := src.length
  let w := (src.getD 0 []).length
  if broadcastOK h y = true ∧ broadcastOK w x = true then
    .ok ((List.range y).map (fun r => (List.range x).map (fun c =>
      (src.getD (bcastGet h r) []).getD (bcastGet w c) none)))
  else .error .valueErrorBroadcast

/-- The zero-filled initial output arrays allocated by
`extract_abi_patches` before the time loop. -/
def initOutput (nPatch y_len x_len : ℕ) (bands : List ℕ) : PatchOutput :=
  { patches := List.replicate nPatch ((List.range y_len).map (fun _ =>
      (List.range x_len).map (fun _ => bands.map (fun _ => 0)))),
    patch_lons := List.replicate nPatch ((List.range y_len).map (fun _ =>
      (List.range x_len).map (fun _ => some 0))),
    patch_lats := List.replicate nPatch ((List.range y_len).map (fun _ =>
      (List.range x_len).map (fun _ => some 0))),
    flash_counts := List.replicate nPatch 0,
    patch_times := [] }

/-- Body of one inner sample iteration of `extract_abi_patches`: write
the flash count at flat index `t * s`, extract the patch at the sampled
cell and write it (with its lon/lat grids) at flat index `t * s`. -/
def sampleStep (glm : GlmData) (env : ABIEnv) (bands : List ℕ)
    (x_len y_len t : ℕ) (rows cols : List ℕ) (out : PatchOutput) (s : ℕ) :
    Except Err PatchOutput := do
  let r := rows.getD s 0
  let c := cols.getD s 0
  let out1 := { out with
    flash_counts := out.flash_counts.set (t * s) (glm.counts t r c) }
  let pr ← extract_image_patch_full env bands (glm.lons r c) (glm.lats r c)
    x_len y_len
  let lonsW ← bcAssign2 y_len x_len pr.lons
  let latsW ← bcAssign2 y_len x_len pr.lats
  Except.ok { out1 with
    patches := out1.patches.set (t * s) pr.patch,
    patch_lons := out1.patch_lons.set (t * s) lonsW,
    patch_lats := out1.patch_lats.set (t * s) latsW }

/-- Body of one time-step iteration of `extract_abi_patches`: shift the
grid time by the lead time, draw the random sample, unravel it, build
the `GOES16ABI` instance (tolerance 11 minutes), record the grid time
for every sample of the step, then run the inner sample loop. -/
def timeStep (glm : GlmData) (env : ABIEnv) (bands : List ℕ)
    (lead_time : ℤ) (x_len y_len samples_per_time : ℕ)
    (seeds : ℕ → ℕ → ℕ) (out : PatchOutput) (tv : ℕ × ℤ) :
    Except Err PatchOutput := do
  let t := tv.1
  let time := tv.2
  let patch_time := time - lead_time
  let time_samples ← timeSamples glm samples_per_time seeds t
  let rows := time_samples.map (fun i => (unravelIdx glm.nx i).1)
  let cols := time_samples.map (fun i => (unravelIdx glm.nx i).2)
  let _ ← mkGOES16ABI env bands 11 patch_time
  let out1 := { out with
    patch_times := out.patch_times ++ List.replicate samples_per_time time }
  (List.range samples_per_time).foldlM
    (sampleStep glm env bands x_len y_len t rows cols) out1

/-- `extract_abi_patches`: abort with `FileNotFoundError` when the GLM
grid file does not exist (before opening anything and before allocating
the output arrays); otherwise open the GLM dataset, allocate the output
arrays, run the time loop, and only after the whole loop succeeded write
the output file.  The first component records the side effects in
order. -/
def extract_abi_patches (glm_exists : Bool) (glm : GlmData) (env : ABIEnv)
    (bands : List ℕ) (lead_time : ℤ) (x_len y_len samples_per_time : ℕ)
    (seeds : ℕ → ℕ → ℕ) : List Effect × Except Err PatchOutput :=
  if glm_exists = false then
    ([], .error .glmFileNotFound)
  else
    let body := glm.times.enum.foldlM
      (timeStep glm env bands lead_time x_len y_len samples_per_time seeds)
      (initOutput (glm.times.length * samples_per_time) y_len x_len bands)
    match body with
    | .error e => ([.openGlm], .error e)
    | .ok out => ([.openGlm, .writeOutput], .ok out)

/-- A map projection, modelled as a pair of inverse coordinate maps
between its projected plane and the common geographic space. -/
structure MapProj where
  fwd : ℤ × ℤ → ℤ × ℤ
  inv : ℤ × ℤ → ℤ × ℤ

/-- `pyproj.transform(p1, p2, x, y)`: interpret the coordinates in
`p1`'s coordinate space and convert them into `p2`'s. -/
def pyprojTransform (p1 p2 : MapProj) (pt : ℤ × ℤ) : ℤ × ℤ :=
  p2.fwd (p1.inv pt)

/-- `regrid_imagery` as written in the source: the destination grid
coordinates are passed to `transform(image_proj, regrid_proj, ...)`,
i.e. converted FROM the source projection INTO the destination
projection, then the spline fitted on the source axes is evaluated at
the transformed points and the result is reshaped to the destination
grid shape.  The spline fit (`RectBivariateSpline`) is an abstract
parameter `fitS`. -/
def regrid_imagery (fitS : List ℤ → List ℤ → List (List ℚ) → ℤ → ℤ → ℚ)
    (image : List (List ℚ)) (x_image y_image : List ℤ)
    (x_regrid y_regrid : List (List ℤ)) (image_proj regrid_proj : MapProj) :
    List (List ℚ) :=
  let rbs := fitS x_image y_image image
  (x_regrid.zip y_regrid).map (fun rowpair =>
    (rowpair.1.zip rowpair.2).map (fun pt =>
      let q := pyprojTransform image_proj regrid_proj pt
      rbs q.1 q.2))

/-- Modelled from the spec (refinement comparison for the regridder
claim): identical to `regrid_imagery` except that, as the spec states,
every destination-grid coordinate is reprojected from the destination
projection into the source projection's coordinate space, i.e. the
transform runs FROM `regrid_proj` INTO `image_proj`. -/
def regrid_imagery_spec (fitS : List ℤ → List ℤ → List (List ℚ) → ℤ → ℤ → ℚ)
    (image : List (List ℚ)) (x_image y_image : List ℤ)
    (x_regrid y_regrid : List (List ℤ)) (image_proj regrid_proj : MapProj) :
    List (List ℚ) :=
  let rbs := fitS x_image y_image image
  (x_regrid.zip y_regrid).map (fun rowpair =>
    (rowpair.1.zip rowpair.2).map (fun pt =>
      let q := pyprojTransform regrid_proj image_proj pt
      rbs q.1 q.2))

/-- A one-day GLM grid with a single time step, a 1 × 2 spatial grid and
per-cell counts 5 and 6: the smallest configuration on which the
`t * s` output indexing of `extract_abi_patches` shows its collision. -/
def glmEx : GlmData :=
  { times := [0], ny := 1, nx := 2,
    lons := fun _ _ => 1, lats := fun _ _ => 1,
    counts := fun _ _ c => (c : ℤ) + 5 }

/-- A matching satellite environment: one candidate granule at the
requested time, a 4 × 4 raster with unit axes and the identity
projection, so a 2 × 2 patch centered at pixel (1, 1) lies fully inside
the raster. -/
def envEx : ABIEnv :=
  { files := fun _ => [0], rad := fun _ _ _ => 0,
    lonG := fun _ _ => some 0, latG := fun _ _ => some 0,
    ny := 4, nx := 4, xAxis := [0, 1, 2, 3], yAxis := [0, 1, 2, 3],
    fwd := fun p => p }

/-- The identity projection (a fixture for the regridder claim). -/
def projId : MapProj := { fwd := fun p => p, inv := fun p => p }

/-- A unit translation of the x coordinate (a fixture for the regridder
claim); forward and inverse maps are mutually inverse. -/
def projShift : MapProj :=
  { fwd := fun p => (p.1 + 1, p.2), inv := fun p => (p.1 - 1, p.2) }

/-- A concrete instance of the abstract spline parameter of the
regridder: the fitted surface returns the x coordinate of the evaluation
point, which makes the two transform directions observably different. -/
def fitSample : List ℤ → List ℤ → List (List ℚ) → ℤ → ℤ → ℚ :=
  fun _ _ _ a _ => (a : ℚ)

theorem pySliceIdx_length (a b : ℤ) (n : ℕ) :
    (pySliceIdx a b n).length = pySliceLen a b n := by
  simp [pySliceIdx]

theorem rowSliceLen_le (c h n : ℕ) : rowSliceLen c h n ≤ 2 * (h / 2) := by
  simp only [rowSliceLen, pySliceLen, normIdx, sliceStart, sliceStop]
  split_ifs <;> omega

theorem rowSliceLen_le_size (c h n : ℕ) : rowSliceLen c h n ≤ h :=
  le_trans (rowSliceLen_le c h n) (by omega)

theorem rowSliceLen_eq_iff (c h n : ℕ) (hc : c < n) :
    rowSliceLen c h n = h ↔
      h % 2 = 0 ∧ 0 ≤ sliceStart c h ∧ sliceStop c h ≤ (n : ℤ) := by
  simp only [rowSliceLen, pySliceLen, normIdx, sliceStart, sliceStop]
  split_ifs <;> omega

/-- C4.  The pixel window of `extract_image_patch` is
`[center - size//2, center + size//2)` with integer floor division (this
is the definition of `pixelWindow`, whose endpoints `sliceStart` and
`sliceStop` are the slice bounds used by the embedding), but for odd
requested sizes the window holds `size - 1` pixels and has one more
pixel on the LOW side of the center, not on the high side as the claim
states. -/
theorem extract_window_centering (c h : ℕ) (hodd : h % 2 = 1) (h3 : 3 ≤ h) :
    (pixelWindow c h).card = h - 1 ∧
    ((pixelWindow c h).filter (fun i => i < (c : ℤ))).card
      = ((pixelWindow c h).filter (fun i => (c : ℤ) < i)).card + 1 := by
  have e1 : (pixelWindow c h).filter (fun i => i < (c : ℤ))
      = Finset.Ico (sliceStart c h) (c : ℤ) := by
    ext x
    simp only [pixelWindow, Finset.mem_filter, Finset.mem_Ico, sliceStart,
      sliceStop]
    omega
  have e2 : (pixelWindow c h).filter (fun i => (c : ℤ) < i)
      = Finset.Ico ((c : ℤ) + 1) (sliceStop c h) := by
    ext x
    simp only [pixelWindow, Finset.mem_filter, Finset.mem_Ico, sliceStart,
      sliceStop]
    omega
  refine ⟨?_, ?_⟩
  · simp only [pixelWindow, Int.card_Ico, sliceStart, sliceStop]
    omega
  · rw [e1, e2]
    simp only [Int.card_Ico, sliceStart, sliceStop]
    omega

/-- C4 witness: the centering theorem applied at center 0 with requested
size 3. -/
theorem extract_window_centering_witness :
    (pixelWindow 0 3).card = 3 - 1 ∧
    ((pixelWindow 0 3).filter (fun i => i < ((0 : ℕ) : ℤ))).card
      = ((pixelWindow 0 3).filter (fun i => ((0 : ℕ) : ℤ) < i)).card + 1 :=
  extract_window_centering 0 3 (by decide) (by decide)

/-- C4 counterexample: for the window centered at pixel 5 with requested
size 3 the high side does NOT hold one more pixel than the low side (the
window is `{4, 5}`: one pixel below the center, none above). -/
theorem extract_window_centering_high_side_false :
    ¬ (((pixelWindow 5 3).filter (fun i => (5 : ℤ) < i)).card
        = ((pixelWindow 5 3).filter (fun i => i < (5 : ℤ))).card + 1) := by
  decide

theorem extract_image_patch_cases (bands : List ℕ) (rad : ℕ → ℕ → ℕ → ℚ)
    (lonG latG : ℕ → ℕ → Option ℚ) (ny nx crow ccol xs ys : ℕ)
    (hb : bands ≠ []) :
    (∃ r, extract_image_patch bands rad lonG latG ny nx crow ccol xs ys
        = .ok r)
      ↔ (broadcastOK (rowSliceLen crow ys ny) ys = true ∧
         broadcastOK (rowSliceLen ccol xs nx) xs = true) := by
  simp only [extract_image_patch, pySliceIdx_length]
  rw [show pySliceLen (sliceStart crow ys) (sliceStop crow ys) ny
      = rowSliceLen crow ys ny from rfl,
    show pySliceLen (sliceStart ccol xs) (sliceStop ccol xs) nx
      = rowSliceLen ccol xs nx from rfl]
  split_ifs with hcond
  · exact iff_of_false (by rintro ⟨r, hr⟩; cases hr) hcond.2
  · exact iff_of_true ⟨_, rfl⟩ (not_not.mp (not_and.mp hcond hb))

theorem extract_image_patch_shape (bands : List ℕ) (rad : ℕ → ℕ → ℕ → ℚ)
    (lonG latG : ℕ → ℕ → Option ℚ) (ny nx crow ccol xs ys : ℕ) :
    ∀ r, extract_image_patch bands rad lonG latG ny nx crow ccol xs ys
        = .ok r →
      r.patch.length = ys ∧ r.lons.length = rowSliceLen crow ys ny ∧
      r.lats.length = rowSliceLen crow ys ny ∧
      (∀ row ∈ r.lons, row.length = rowSliceLen ccol xs nx) ∧
      (∀ row ∈ r.lats, row.length = rowSliceLen ccol xs nx) := by
  intro r hr
  simp only [extract_image_patch] at hr
  split_ifs at hr
  · injection hr with hr
    subst hr
    refine ⟨?_, ?_, ?_, ?_, ?_⟩
    · simp
    · simp [pySliceIdx_length, rowSliceLen]
    · simp [pySliceIdx_length, rowSliceLen]
    · intro row hrow
      rcases List.mem_map.mp hrow with ⟨i, _, rfl⟩
      simp [pySliceIdx_length, rowSliceLen]
    · intro row hrow
      rcases List.mem_map.mp hrow with ⟨i, _, rfl⟩
      simp [pySliceIdx_length, rowSliceLen]

/-- C2 (amended).  For `extract_image_patch` with a nonempty band list
and a valid center pixel: the slice lengths are bounded by the requested
sizes; the call returns successfully exactly when each axis slice length
is broadcast compatible with the requested size (equal, or the
degenerate length 1); on success the lon/lat arrays have the slice
lengths as dimensions (the radiance patch is allocated at the requested
size); and an axis slice length equals the requested size exactly when
that size is even and the centered window lies fully inside the grid.
In particular an odd requested size or a non-degenerate truncated edge
window raises a broadcast error instead of returning a smaller patch. -/
theorem extract_patch_boundary_law (bands : List ℕ) (rad : ℕ → ℕ → ℕ → ℚ)
    (lonG latG : ℕ → ℕ → Option ℚ) (ny nx crow ccol xs ys : ℕ)
    (hb : bands ≠ []) (hrow : crow < ny) (hcol : ccol < nx) :
    (rowSliceLen crow ys ny ≤ ys ∧ rowSliceLen ccol xs nx ≤ xs) ∧
    ((∃ r, extract_image_patch bands rad lonG latG ny nx crow ccol xs ys
        = .ok r)
      ↔ (broadcastOK (rowSliceLen crow ys ny) ys = true ∧
         broadcastOK (rowSliceLen ccol xs nx) xs = true)) ∧
    (∀ r, extract_image_patch bands rad lonG latG ny nx crow ccol xs ys
        = .ok r →
      r.patch.length = ys ∧ r.lons.length = rowSliceLen crow ys ny ∧
      r.lats.length = rowSliceLen crow ys ny ∧
      ∀ row ∈ r.lons, row.length = rowSliceLen ccol xs nx) ∧
    (rowSliceLen crow ys ny = ys ↔
      ys % 2 = 0 ∧ 0 ≤ sliceStart crow ys ∧ sliceStop crow ys ≤ (ny : ℤ)) ∧
    (rowSliceLen ccol xs nx = xs ↔
      xs % 2 = 0 ∧ 0 ≤ sliceStart ccol xs ∧ sliceStop ccol xs ≤ (nx : ℤ)) :=
  ⟨⟨rowSliceLen_le_size crow ys ny, rowSliceLen_le_size ccol xs nx⟩,
    extract_image_patch_cases bands rad lonG latG ny nx crow ccol xs ys hb,
    fun r hr =>
      match extract_image_patch_shape bands rad lonG latG ny nx crow ccol
          xs ys r hr with
      | ⟨h1, h2, h3, h4, _⟩ => ⟨h1, h2, h3, h4⟩,
    rowSliceLen_eq_iff crow ys ny hrow,
    rowSliceLen_eq_iff ccol xs nx hcol⟩

/-- C2 witness: the boundary law applied to a 4 × 4 patch centered at
pixel (5, 5) of a 10 × 10 grid with one band. -/
theorem extract_patch_boundary_law_witness :
    (rowSliceLen 5 4 10 ≤ 4 ∧ rowSliceLen 5 4 10 ≤ 4) ∧
    ((∃ r, extract_image_patch [1] (fun _ _ _ => 0) (fun _ _ => none)
        (fun _ _ => none) 10 10 5 5 4 4 = .ok r)
      ↔ (broadcastOK (rowSliceLen 5 4 10) 4 = true ∧
         broadcastOK (rowSliceLen 5 4 10) 4 = true)) ∧
    (∀ r, extract_image_patch [1] (fun _ _ _ => 0) (fun _ _ => none)
        (fun _ _ => none) 10 10 5 5 4 4 = .ok r →
      r.patch.length = 4 ∧ r.lons.length = rowSliceLen 5 4 10 ∧
      r.lats.length = rowSliceLen 5 4 10 ∧
      ∀ row ∈ r.lons, row.length = rowSliceLen 5 4 10) ∧
    (rowSliceLen 5 4 10 = 4 ↔
      4 % 2 = 0 ∧ 0 ≤ sliceStart 5 4 ∧ sliceStop 5 4 ≤ (10 : ℤ)) ∧
    (rowSliceLen 5 4 10 = 4 ↔
      4 % 2 = 0 ∧ 0 ≤ sliceStart 5 4 ∧ sliceStop 5 4 ≤ (10 : ℤ)) :=
  extract_patch_boundary_law [1] (fun _ _ _ => 0) (fun _ _ => none)
    (fun _ _ => none) 10 10 5 5 4 4 (by decide) (by decide) (by decide)

/-- C2 counterexample: a 3 × 3 patch request whose centered window
`[4, 6) × [4, 6)` lies fully inside a 10 × 10 grid raises a broadcast
`ValueError` instead of returning arrays of exactly the requested
(or any truncated) size. -/
theorem extract_patch_requested_size_false :
    extract_image_patch [1] (fun _ _ _ => 0) (fun _ _ => none)
        (fun _ _ => none) 10 10 5 5 3 3 = .error .valueErrorBroadcast ∧
    0 ≤ sliceStart 5 3 ∧ sliceStop 5 3 ≤ (10 : ℤ) := by
  decide

theorem argminIdx_lt_length (l : List ℤ) (h : l ≠ []) :
    argminIdx l < l.length := by
  induction l with
  | nil => exact absurd rfl h
  | cons x xs ih =>
    cases xs with
    | nil => simp [argminIdx]
    | cons y ys =>
      simp only [argminIdx]
      split_ifs
      · simp
      · have hy := ih (by simp)
        simp only [List.length_cons] at hy ⊢
        omega

theorem argminIdx_le (l : List ℤ) : ∀ d ∈ l, l.getD (argminIdx l) 0 ≤ d := by
  induction l with
  | nil => intro d hd; cases hd
  | cons x xs ih =>
    cases xs with
    | nil =>
      intro d hd
      rcases List.mem_singleton.mp hd with rfl
      simp [argminIdx]
    | cons y ys =>
      intro d hd
      simp only [argminIdx]
      split_ifs with hx
      · rcases List.mem_cons.mp hd with rfl | hd2
        · simp
        · simp only [List.getD_cons_zero]
          exact le_trans hx (ih d hd2)
      · rcases List.mem_cons.mp hd with rfl | hd2
        · simp only [List.getD_cons_succ]
          exact (not_le.mp hx).le
        · simp only [List.getD_cons_succ]
          exact ih d hd2

/-- C5.  With a nonempty candidate list whose minimal absolute distance
to the requested timestamp is `d1` (seconds): when `d1` is within the
tolerance (`time_range_minutes` minutes), the locator returns a
candidate whose distance is exactly `d1`; otherwise it raises the
granule-not-found error whose message reports `d1 / 60`, the nearest
miss in minutes. -/
theorem goes16_abi_filename_nearest (tol pd d1 : ℤ) (dates : List ℤ)
    (hmem : d1 ∈ dates.map (fun d => absZ (d - pd)))
    (hmin : ∀ e ∈ dates.map (fun d => absZ (d - pd)), d1 ≤ e) :
    (d1 ≤ 60 * tol →
      ∃ i, goes16_abi_filename tol pd dates = .ok i ∧ i < dates.length ∧
        absZ (dates.getD i 0 - pd) = d1) ∧
    (¬ d1 ≤ 60 * tol →
      goes16_abi_filename tol pd dates
        = .error (.granuleNotFound ((d1 : ℚ) / 60))) := by
  simp only [goes16_abi_filename]
  set diffs := dates.map (fun d => absZ (d - pd)) with hdiffs
  have hne : diffs ≠ [] := by
    intro h
    rw [h] at hmem
    cases hmem
  have hlen : diffs.length = dates.length := by
    rw [hdiffs, List.length_map]
  have hlt : argminIdx diffs < diffs.length := argminIdx_lt_length diffs hne
  have hmemmin : diffs.getD (argminIdx diffs) 0 ∈ diffs := by
    rw [List.getD_eq_getElem _ _ hlt]
    exact List.getElem_mem hlt
  have hval : diffs.getD (argminIdx diffs) 0 = d1 :=
    le_antisymm (argminIdx_le diffs d1 hmem) (hmin _ hmemmin)
  constructor
  · intro h1
    have hany : diffs.any (fun d => decide (d ≤ 60 * tol)) = true :=
      List.any_eq_true.mpr ⟨d1, hmem, by simpa using h1⟩
    rw [if_pos hany]
    refine ⟨argminIdx diffs, rfl, by omega, ?_⟩
    have hlt2 : argminIdx diffs < dates.length := by omega
    have : diffs.getD (argminIdx diffs) 0
        = absZ (dates.getD (argminIdx diffs) 0 - pd) := by
      rw [List.getD_eq_getElem _ _ hlt, List.getD_eq_getElem _ _ hlt2]
      simp only [hdiffs, List.getElem_map]
    rw [← this, hval]
  · intro h2
    have hany : diffs.any (fun d => decide (d ≤ 60 * tol)) = false := by
      rw [List.any_eq_false]
      intro d hd
      simp only [decide_eq_true_eq]
      intro hle
      exact h2 (le_trans (hmin d hd) hle)
    rw [if_neg (by simp [hany]), if_neg hne, hval]

/-- C5 witness: candidates at 150 s and 400 s from the requested time
with a 5-minute tolerance select the 150 s candidate. -/
theorem goes16_abi_filename_nearest_witness :
    ∃ i, goes16_abi_filename 5 0 [150, 400] = .ok i ∧
      i < ([150, 400] : List ℤ).length ∧
      absZ (([150, 400] : List ℤ).getD i 0 - 0) = 150 :=
  (goes16_abi_filename_nearest 5 0 150 [150, 400] (by decide) (by decide)).1
    (by decide)

/-- C10.  With zero candidate files the locator does not raise the
documented granule-not-found error: building that error's message takes
the minimum of an empty array of time differences, so the call fails
with a `ValueError` instead. -/
theorem goes16_abi_filename_empty_candidates (tol pd : ℤ) :
    goes16_abi_filename tol pd [] = .error .valueErrorEmptyMin ∧
    ∀ q : ℚ, goes16_abi_filename tol pd [] ≠ .error (.granuleNotFound q) := by
  refine ⟨rfl, ?_⟩
  intro q h
  rw [show goes16_abi_filename tol pd [] = .error .valueErrorEmptyMin
    from rfl] at h
  injection h with h2
  cases h2

theorem maskOffEarth_entry (g : List (List ℚ)) (i j : ℕ)
    (hi : i < g.length) (hj : j < (g.getD i []).length) :
    ((maskOffEarth g).getD i []).getD j (some 0)
      = if sentinelThreshold < (g.getD i []).getD j 0 then none
        else some ((g.getD i []).getD j 0) := by
  have hgd : g.getD i [] = g[i] := List.getD_eq_getElem g [] hi
  have hi2 : i < (maskOffEarth g).length := by
    simpa [maskOffEarth] using hi
  have hj2 : j < g[i].length := by
    rw [← hgd]
    exact hj
  rw [List.getD_eq_getElem _ _ hi2]
  simp only [maskOffEarth, List.getElem_map]
  have hj3 : j < (g[i].map
      (fun v => if sentinelThreshold < v then none else some v)).length := by
    simpa using hj2
  rw [List.getD_eq_getElem _ _ hj3]
  simp only [List.getElem_map]
  rw [hgd, List.getD_eq_getElem _ _ hj2]

theorem maskOffEarth_no_sentinel (g : List (List ℚ)) :
    ∀ row ∈ maskOffEarth g, ∀ o ∈ row, ∀ q : ℚ,
      o = some q → q ≤ sentinelThreshold := by
  intro row hrow o ho q hq
  rcases List.mem_map.mp hrow with ⟨r0, _, rfl⟩
  rcases List.mem_map.mp ho with ⟨v, _, rfl⟩
  by_cases hv : sentinelThreshold < v
  · rw [if_pos hv] at hq
    cases hq
  · rw [if_neg hv] at hq
    injection hq with hq
    subst hq
    exact not_lt.mp hv

/-- C6.  In `lon_lat_coords`, every pixel at which the raw inverse
projection produced the off-Earth sentinel (a value above `1e10`, the
code's sentinel test) in both coordinates holds NaN in both the
longitude and the latitude grid, and no entry above the sentinel
threshold survives in either masked grid. -/
theorem lon_lat_coords_offEarth (lonRaw latRaw : List (List ℚ)) (i j : ℕ)
    (hiLon : i < lonRaw.length) (hjLon : j < (lonRaw.getD i []).length)
    (hiLat : i < latRaw.length) (hjLat : j < (latRaw.getD i []).length)
    (hsLon : sentinelThreshold < (lonRaw.getD i []).getD j 0)
    (hsLat : sentinelThreshold < (latRaw.getD i []).getD j 0) :
    (((lon_lat_coords lonRaw latRaw).1.getD i []).getD j (some 0) = none ∧
     ((lon_lat_coords lonRaw latRaw).2.getD i []).getD j (some 0) = none) ∧
    (∀ row ∈ (lon_lat_coords lonRaw latRaw).1, ∀ o ∈ row, ∀ q : ℚ,
      o = some q → q ≤ sentinelThreshold) ∧
    (∀ row ∈ (lon_lat_coords lonRaw latRaw).2, ∀ o ∈ row, ∀ q : ℚ,
      o = some q → q ≤ sentinelThreshold) := by
  refine ⟨⟨?_, ?_⟩, ?_, ?_⟩
  · rw [show (lon_lat_coords lonRaw latRaw).1 = maskOffEarth lonRaw from rfl,
      maskOffEarth_entry lonRaw i j hiLon hjLon, if_pos hsLon]
  · rw [show (lon_lat_coords lonRaw latRaw).2 = maskOffEarth latRaw from rfl,
      maskOffEarth_entry latRaw i j hiLat hjLat, if_pos hsLat]
  · exact maskOffEarth_no_sentinel lonRaw
  · exact maskOffEarth_no_sentinel latRaw

/-- C6 witness: a 1 × 1 grid whose single pixel holds the sentinel value
`1e11` in both raw grids is NaN in both masked grids. -/
theorem lon_lat_coords_offEarth_witness :
    (((lon_lat_coords [[100000000000]] [[100000000000]]).1.getD 0 []).getD 0
        (some 0) = none ∧
      ((lon_lat_coords [[100000000000]] [[100000000000]]).2.getD 0 []).getD 0
        (some 0) = none) ∧
    (∀ row ∈ (lon_lat_coords [[100000000000]] [[100000000000]]).1,
      ∀ o ∈ row, ∀ q : ℚ, o = some q → q ≤ sentinelThreshold) ∧
    (∀ row ∈ (lon_lat_coords [[100000000000]] [[100000000000]]).2,
      ∀ o ∈ row, ∀ q : ℚ, o = some q → q ≤ sentinelThreshold) :=
  lon_lat_coords_offEarth [[100000000000]] [[100000000000]] 0 0
    (by decide) (by decide) (by decide) (by decide) (by decide) (by decide)

theorem closeGOES16_all (bands : List ℕ) (hnd : bands.Nodup) :
    closeGOES16 bands bands = .ok [] := by
  induction bands with
  | nil => rfl
  | cons b bs ih =>
    have hmem : b ∈ b :: bs := List.mem_cons_self b bs
    simp only [closeGOES16, List.foldlM_cons, if_pos hmem,
      List.erase_cons_head, bind, Except.bind]
    exact ih (List.Nodup.of_cons hnd)

theorem closeGOES16_empty (bands : List ℕ) (hne : bands ≠ []) :
    closeGOES16 bands [] = .error .keyError := by
  cases bands with
  | nil => exact absurd rfl hne
  | cons b bs =>
    simp [closeGOES16, List.foldlM_cons, bind, Except.bind]

/-- C9.  `close()` removes every band's dataset entry, so with at least
one (distinct) band the first close succeeds and empties the dataset
dictionary, and a second close raises `KeyError` instead of being a
no-op. -/
theorem close_twice_keyError (bands : List ℕ) (hne : bands ≠ [])
    (hnd : bands.Nodup) :
    closeGOES16 bands bands = .ok [] ∧
    (closeGOES16 bands bands).bind (fun ds2 => closeGOES16 bands ds2)
      = .error .keyError := by
  have h1 := closeGOES16_all bands hnd
  refine ⟨h1, ?_⟩
  rw [h1]
  show closeGOES16 bands [] = .error .keyError
  exact closeGOES16_empty bands hne

/-- C9 witness: a single-band image; the first close empties the
dictionary, the second close raises `KeyError`. -/
theorem close_twice_keyError_witness :
    closeGOES16 [1] [1] = .ok [] ∧
    (closeGOES16 [1] [1]).bind (fun ds2 => closeGOES16 [1] ds2)
      = .error .keyError :=
  close_twice_keyError [1] (by decide) (by decide)

/-- C8.  A missing GLM grid file makes `extract_abi_patches` fail with
`FileNotFoundError` before any side effect (the dataset is never opened,
the output arrays are never allocated, the effect trace is empty), and
in every failing run — whatever the failure — the output artifact is
never written. -/
theorem missing_glm_aborts (glm : GlmData) (env : ABIEnv) (bands : List ℕ)
    (lead : ℤ) (xl yl k : ℕ) (seeds : ℕ → ℕ → ℕ) :
    extract_abi_patches false glm env bands lead xl yl k seeds
      = ([], .error .glmFileNotFound) ∧
    (∀ (ex : Bool) (e : Err),
      (extract_abi_patches ex glm env bands lead xl yl k seeds).2
        = .error e →
      Effect.writeOutput
        ∉ (extract_abi_patches ex glm env bands lead xl yl k seeds).1) := by
  constructor
  · rfl
  · intro ex e he
    cases ex
    · simp [extract_abi_patches]
    · simp only [extract_abi_patches] at he ⊢
      rw [if_neg (by simp)] at he ⊢
      cases hbody : glm.times.enum.foldlM
          (timeStep glm env bands lead xl yl k seeds)
          (initOutput (glm.times.length * k) yl xl bands) with
      | error e2 => simp
      | ok out =>
        rw [hbody] at he
        simp at he

/-- C8 witness: the theorem applied to the concrete example pipeline
with the GLM grid file absent. -/
theorem missing_glm_aborts_witness :
    extract_abi_patches false glmEx envEx [1] 0 2 2 2 (fun _ _ => 0)
      = ([], .error .glmFileNotFound) ∧
    Effect.writeOutput
      ∉ (extract_abi_patches false glmEx envEx [1] 0 2 2 2
          (fun _ _ => 0)).1 :=
  ⟨(missing_glm_aborts glmEx envEx [1] 0 2 2 2 (fun _ _ => 0)).1,
    (missing_glm_aborts glmEx envEx [1] 0 2 2 2 (fun _ _ => 0)).2 false
      .glmFileNotFound rfl⟩

/-- C1 (code bug).  Concrete run of the patch sampler on one time step
with two samples over a 1 × 2 grid whose per-cell flash counts are 5 and
6 (sampled in that order): the code stores both samples at flattened
index `t * s` = 0, so the final label array is `[6, 0]` — the second
sample overwrote the first and index 1 (= `t*S + s` for the second
sample) was never written — instead of `[5, 6]` as the claimed
`t*S + s` layout requires. -/
theorem patch_index_collision :
    ((extract_abi_patches true glmEx envEx [1] 0 2 2 2 (fun _ _ => 0)).2.map
        (fun o => o.flash_counts)) = .ok [6, 0] ∧
    ((extract_abi_patches true glmEx envEx [1] 0 2 2 2 (fun _ _ => 0)).2.map
        (fun o => o.flash_counts)) ≠ .ok [5, 6] := by
  decide

/-- C3 (code bug).  `regrid_imagery` hands the destination-grid
coordinates to `transform(image_proj, regrid_proj, ...)`, converting
them FROM the source INTO the destination projection; the spec requires
the opposite direction.  With the identity source projection, a unit
x-translation as destination projection, and a spline fixture returning
the x coordinate, the code evaluates the spline at `x + 1` where the
spec-stated algorithm evaluates it at `x - 1`. -/
theorem regrid_transform_direction :
    regrid_imagery fitSample [[0]] [0] [0] [[0]] [[0]] projId projShift
      = [[(1 : ℚ)]] ∧
    regrid_imagery_spec fitSample [[0]] [0] [0] [[0]] [[0]] projId projShift
      = [[(-1 : ℚ)]] ∧
    ([[(1 : ℚ)]] : List (List ℚ)) ≠ [[(-1 : ℚ)]] := by
  decide

/-- C10 witness: concrete tolerance and date with an empty candidate
list. -/
theorem goes16_abi_filename_empty_candidates_witness :
    goes16_abi_filename 2 0 [] = .error .valueErrorEmptyMin ∧
    goes16_abi_filename 2 0 [] ≠ .error (.granuleNotFound (5 / 2)) :=
  ⟨(goes16_abi_filename_empty_candidates 2 0).1,
    (goes16_abi_filename_empty_candidates 2 0).2 (5 / 2)⟩

theorem perm_getD_cons_eraseIdx (l : List ℕ) (j : ℕ) (hj : j < l.length) :
    List.Perm l (l.getD j 0 :: l.eraseIdx j) := by
  induction l generalizing j with
  | nil => cases hj
  | cons x xs ih =>
    cases j with
    | zero => simp
    | succ j =>
      have hj2 : j < xs.length := by simpa using hj
      simp only [List.getD_cons_succ, List.eraseIdx_cons_succ]
      exact ((ih j hj2).cons x).trans (List.Perm.swap _ _ _)

theorem permAux_perm (fuel : ℕ) :
    ∀ (l : List ℕ) (seed : ℕ → ℕ), l.length = fuel →
      List.Perm (permAux fuel l seed) l := by
  induction fuel with
  | zero =>
    intro l seed hl
    rw [List.length_eq_zero.mp hl]
    rfl
  | succ fuel ih =>
    intro l seed hl
    have hne : l ≠ [] := by
      intro h
      rw [h] at hl
      cases hl
    have hpos : 0 < l.length := List.length_pos.mpr hne
    have hj : seed 0 % l.length < l.length := Nat.mod_lt _ hpos
    have he : (l.eraseIdx (seed 0 % l.length)).length = fuel := by
      have := List.length_eraseIdx_add_one hj
      omega
    simp only [permAux, if_neg hne]
    exact ((ih _ _ he).cons _).trans
      (perm_getD_cons_eraseIdx l (seed 0 % l.length) hj).symm

theorem randPerm_perm (seed : ℕ → ℕ) (l : List ℕ) :
    List.Perm (randPerm seed l) l :=
  permAux_perm l.length l seed rfl

theorem choiceNoReplace_spec (n k : ℕ) (seed : ℕ → ℕ) (hk : k ≤ n) :
    ∃ l, choiceNoReplace n k seed = .ok l ∧ l.length = k ∧ l.Nodup ∧
      ∀ i ∈ l, i < n := by
  have hperm := randPerm_perm seed (List.range n)
  have hlen : (randPerm seed (List.range n)).length = n := by
    rw [hperm.length_eq, List.length_range]
  refine ⟨(randPerm seed (List.range n)).take k,
    by simp [choiceNoReplace, hk], ?_, ?_, ?_⟩
  · rw [List.length_take, hlen]
    omega
  · exact List.Nodup.sublist (List.take_sublist k _)
      (hperm.nodup_iff.mpr (List.nodup_range n))
  · intro i hi
    have hmem : i ∈ randPerm seed (List.range n) := List.mem_of_mem_take hi
    exact List.mem_range.mp (hperm.mem_iff.mp hmem)

theorem eraseIdx_indexOf_eq_erase (l : List ℕ) (x : ℕ) (hx : x ∈ l) :
    l.eraseIdx (l.indexOf x) = l.erase x := by
  induction l with
  | nil => cases hx
  | cons a as ih =>
    by_cases hax : a = x
    · subst hax
      simp [List.indexOf_cons_self]
    · have hmem : x ∈ as := by
        rcases List.mem_cons.mp hx with h | h
        · exact absurd h.symm hax
        · exact h
      have h1 : (a :: as).erase x = a :: as.erase x := by
        simp [List.erase_cons, hax]
      have h2 : (a :: as).indexOf x = as.indexOf x + 1 := by
        simp [List.indexOf_cons_ne _ hax]
      rw [h2, List.eraseIdx_cons_succ, h1, ih hmem]

theorem permAux_surj (t : List ℕ) :
    ∀ l : List ℕ, List.Perm t l → ∃ seed : ℕ → ℕ, permAux l.length l seed = t := by
  induction t with
  | nil =>
    intro l hp
    rw [hp.symm.eq_nil]
    exact ⟨fun _ => 0, rfl⟩
  | cons x t2 ih =>
    intro l hp
    have hx : x ∈ l := hp.subset (List.mem_cons_self x t2)
    have hidx : l.indexOf x < l.length := List.indexOf_lt_length.mpr hx
    have herase : List.Perm t2 (l.erase x) :=
      (hp.trans (List.perm_cons_erase hx)).cons_inv
    obtain ⟨s2, hs2⟩ := ih (l.erase x) herase
    have hne : l ≠ [] := by
      intro h
      rw [h] at hx
      cases hx
    have hlen : l.length = (l.erase x).length + 1 := by
      rw [List.length_erase_of_mem hx]
      have := List.length_pos.mpr hne
      omega
    refine ⟨fun i => match i with | 0 => l.indexOf x | i + 1 => s2 i, ?_⟩
    rw [hlen]
    simp only [permAux, if_neg hne]
    rw [show (fun i => (fun i => match i with
        | 0 => l.indexOf x | i + 1 => s2 i) (i + 1)) = s2 from rfl]
    rw [show l.indexOf x % l.length = l.indexOf x from Nat.mod_eq_of_lt hidx]
    rw [List.getD_eq_getElem l 0 hidx, List.getElem_indexOf hidx,
      eraseIdx_indexOf_eq_erase l x hx, hs2]

theorem choiceNoReplace_surj (n k : ℕ) (L : List ℕ) (hnd : L.Nodup)
    (hlen : L.length = k) (hmem : ∀ i ∈ L, i < n) :
    ∃ seed, choiceNoReplace n k seed = .ok L := by
  have hsub : L.toFinset ⊆ Finset.range n := by
    intro i hi
    exact Finset.mem_range.mpr (hmem i (List.mem_toFinset.mp hi))
  have hkn : k ≤ n := by
    have h1 : L.toFinset.card = L.length := List.toFinset_card_of_nodup hnd
    have h2 : L.toFinset.card ≤ n := by
      simpa using Finset.card_le_card hsub
    omega
  have hrestnd : ((List.range n).filter (fun i => decide (i ∉ L))).Nodup :=
    List.Nodup.filter _ (List.nodup_range n)
  have hdisj : L.Disjoint ((List.range n).filter (fun i => decide (i ∉ L))) := by
    intro a haL haR
    rcases List.mem_filter.mp haR with ⟨_, hdec⟩
    exact (decide_eq_true_eq.mp hdec) haL
  have hperm : List.Perm (L ++ (List.range n).filter (fun i => decide (i ∉ L)))
      (List.range n) := by
    apply (List.perm_ext_iff_of_nodup
      (List.Nodup.append hnd hrestnd hdisj) (List.nodup_range n)).mpr
    intro a
    simp only [List.mem_append, List.mem_filter, List.mem_range,
      decide_eq_true_eq]
    constructor
    · rintro (h | ⟨h, _⟩)
      · exact hmem a h
      · exact h
    · intro h
      by_cases haL : a ∈ L
      · exact Or.inl haL
      · exact Or.inr ⟨h, haL⟩
  obtain ⟨seed, hseed⟩ := permAux_surj _ (List.range n) hperm
  refine ⟨seed, ?_⟩
  rw [choiceNoReplace, if_pos hkn]
  rw [show randPerm seed (List.range n)
      = permAux (List.range n).length (List.range n) seed from rfl, hseed,
    ← hlen, List.take_left]

/-- C7.  Per time step the sampler draws, for every random stream,
`samples_per_time` pairwise-distinct flat indices of the full
`ny * nx`-cell spatial grid (modelling `np.random.choice(
np.arange(lons.size), size=samples_per_time, replace=False)` as a prefix
of a seed-driven random permutation); the draw reads only the grid shape
and the random stream — never the count values — and every
duplicate-free index list of the right length is reachable for some
stream, so no cell or combination is excluded or weighted. -/
theorem sampling_uniqueness_law (n k : ℕ) (seed : ℕ → ℕ)
    (glm glm2 : GlmData) (samples t : ℕ) (seeds : ℕ → ℕ → ℕ)
    (hk : k ≤ n) (hny : glm.ny = glm2.ny) (hnx : glm.nx = glm2.nx) :
    (∃ l, choiceNoReplace n k seed = .ok l ∧ l.length = k ∧ l.Nodup ∧
      ∀ i ∈ l, i < n) ∧
    timeSamples glm samples seeds t
      = choiceNoReplace (glm.ny * glm.nx) samples (seeds t) ∧
    timeSamples glm samples seeds t = timeSamples glm2 samples seeds t ∧
    (∀ L : List ℕ, L.Nodup → L.length = k → (∀ i ∈ L, i < n) →
      ∃ s2, choiceNoReplace n k s2 = .ok L) :=
  ⟨choiceNoReplace_spec n k seed hk, rfl,
    by simp [timeSamples, hny, hnx],
    fun L h1 h2 h3 => choiceNoReplace_surj n k L h1 h2 h3⟩

/-- C7 witness: three grid cells, two samples, the all-zero random
stream, and the example GLM grid. -/
theorem sampling_uniqueness_law_witness :
    (∃ l, choiceNoReplace 3 2 (fun _ => 0) = .ok l ∧ l.length = 2 ∧
      l.Nodup ∧ ∀ i ∈ l, i < 3) ∧
    timeSamples glmEx 2 (fun _ _ => 0) 0
      = choiceNoReplace (glmEx.ny * glmEx.nx) 2 ((fun _ _ => 0) 0) ∧
    timeSamples glmEx 2 (fun _ _ => 0) 0
      = timeSamples glmEx 2 (fun _ _ => 0) 0 ∧
    (∀ L : List ℕ, L.Nodup → L.length = 2 → (∀ i ∈ L, i < 3) →
      ∃ s2, choiceNoReplace 3 2 s2 = .ok L) :=
  sampling_uniqueness_law 3 2 (fun _ => 0) glmEx glmEx 2 0 (fun _ _ => 0)
    (by decide) rfl rfl

end Goes16
